import Mathlib

/-!
Shallow embedding of the `gake` task runner: the `tasking` package
(per-task lifecycle `tRunner` / `FailNow` / `SkipNow` / `Parallel`, the
scheduler `RunTasks` with its serial walk and bounded-parallel drain
loop, the sweep driver `Main` with `startAlarm` / `stopAlarm`, and the
reporter `T.report` / `decorate`), plus the cached `matchString` of the
generated main file.  Concurrency is embedded by making the scheduler's
only nondeterministic choices (which waiting parallel task a
`startParallel` send wakes, and which completed task the collector
yields next) explicit oracle parameters; everything else in the Go code
is sequential and is translated directly.
-/

namespace Gake

/-- Completion summary of one task as the scheduler receives it on the
signal channel: the (possibly degree-suffixed) name together with the
final `failed`/`skipped` flags and the accumulated decorated output of
its `T`. -/
structure TaskRes where
  name : String
  failed : Bool
  skipped : Bool
  output : String
  deriving DecidableEq, Repr

/-- The characters after the last occurrence of `sep`, or `none` when
`sep` does not occur: `strings.LastIndex` plus the slice `file[i+1:]`. -/
def afterLast (sep : Char) : List Char → Option (List Char)
  | [] => none
  | c :: rest =>
    match afterLast sep rest with
    | some r => some r
    | none => if c == sep then some rest else none

/-- File-name truncation inside `decorate`: keep everything after the
last `/`, else after the last `\`. -/
def truncFile (file : String) : String :=
  match afterLast '/' file.data with
  | some r => String.mk r
  | none =>
    match afterLast '\\' file.data with
    | some r => String.mk r
    | none => file

/-- `strings.Split(s, "\n")` on the character list: split at every
newline, keeping empty segments. -/
def splitNl : List Char → List (List Char)
  | [] => [[]]
  | c :: rest =>
    match splitNl rest, c == '\n' with
    | r, true => [] :: r
    | [], false => [[c]]
    | g :: gs, false => (c :: g) :: gs

/-- `strings.Split(s, "\n")` as used by `decorate`. -/
def splitOnNl (s : String) : List String := (splitNl s.data).map String.mk

/-- `decorate` from the `tasking` package: prefix the text with the
call-site file and line (`caller = none` models a failed
`runtime.Caller`, giving `???:1`), indent every line at least one tab,
indent continuation lines an extra two tabs, drop a trailing empty line,
and end with a newline. -/
def decorate (caller : Option (String × Nat)) (s : String) : String :=
  let fl : String × Nat :=
    match caller with
    | some (f, l) => (truncFile f, l)
    | none => ("???", 1)
  let lines := splitOnNl s
  let lines := if lines.length > 1 && lines.getLast? == some "" then lines.dropLast else lines
  "\t" ++ fl.1 ++ ":" ++ toString fl.2 ++ ": " ++ String.intercalate "\n\t\t" lines ++ "\n"

/-- `fmt.Sprintln` on a single string argument. -/
def sprintln (s : String) : String := s ++ "\n"

/-- Degree-suffixed task name built by `RunTasks`:
`if procs != 1 { taskName = fmt.Sprintf("%s-%d", tasks[i].Name, procs) }`. -/
def taskName (procs : Nat) (name : String) : String :=
  if procs != 1 then name ++ "-" ++ toString procs else name

/-- `T.report`: the string printed for one completed task.  `secs` is the
two-decimal rendering of `t.duration.Seconds()` (wall-clock time, hence a
parameter).  A failed task always prints `--- FAIL`; skipped and passed
tasks print only in verbose (`chatty`) mode; otherwise nothing. -/
def reportStr (chatty : Bool) (secs : String) (r : TaskRes) : String :=
  let tstr := "(" ++ secs ++ " seconds)"
  if r.failed then "--- FAIL: " ++ r.name ++ " " ++ tstr ++ "\n" ++ r.output
  else if chatty then
    if r.skipped then "--- SKIP: " ++ r.name ++ " " ++ tstr ++ "\n" ++ r.output
    else "--- PASS: " ++ r.name ++ " " ++ tstr ++ "\n" ++ r.output
  else ""

/-! ## The per-task lifecycle: `tRunner`

A task body is summarised by how it left its goroutine (`BodyExit`) and
by the `common` flags it had set when it did.  `runtime.Goexit` is the
exit used by `FailNow`/`SkipNow` (which set `finished` first) and by a
bare `runtime.Goexit` inside the body (which does not); `panic(nil)`
recovers to `nil` exactly like a bare Goexit and is folded into that
case, matching the error text `task executed panic(nil) or
runtime.Goexit`. -/

inductive BodyExit
  | ret
  | goexit
  | panicked (msg : String)
  deriving DecidableEq, Repr

/-- Summary of one execution of a task body `task.F(t)`. -/
structure BodyRun where
  exit : BodyExit
  failed : Bool
  skipped : Bool
  finished : Bool
  output : String
  parallelCalled : Bool
  deriving DecidableEq, Repr

/-- The `finished` flag after `tRunner`'s statement `t.finished = true`,
which runs only when the body returned normally. -/
def finishedAfterBody (b : BodyRun) : Bool :=
  match b.exit with
  | .ret => true
  | _ => b.finished

/-- The error value held by `tRunner`'s deferred function after
`err := recover()` and the
`if !t.finished && err == nil { err = ... }` fix-up. -/
def recoveredErr (b : BodyRun) : Option String :=
  match b.exit with
  | .panicked m => some m
  | _ =>
    if !finishedAfterBody b then some "task executed panic(nil) or runtime.Goexit"
    else none

/-- `true` when `tRunner`'s deferred function takes the fatal path
(`err != nil`): mark failed, report, re-panic — and never signal. -/
def isFault (b : BodyRun) : Bool := (recoveredErr b).isSome

/-- Outcome of `tRunner`'s deferred function: either the completion value
sent on `t.signal`, or a propagated panic (after `t.Fail()` and
`t.report()`), which aborts the whole process. -/
inductive RunnerResult
  | completed (failed skipped : Bool) (output : String)
  | faulted (panicMsg : String) (failed : Bool) (reportOut : String)
  deriving DecidableEq, Repr

/-- `tRunner`'s deferred function on a finished body. -/
def tRunner (b : BodyRun) : RunnerResult :=
  match recoveredErr b with
  | some m => .faulted m true b.output
  | none => .completed b.failed b.skipped b.output

/-- A message on a task's `signal` channel: the `(*T)(nil)` marker sent
by `T.Parallel`, or the completion value `t` sent by `tRunner`. -/
inductive SigMsg
  | nilMarker
  | done (failed skipped : Bool) (output : String)
  deriving DecidableEq, Repr

/-- All messages ever sent on one task's `signal` channel, in order:
`T.Parallel` sends the nil marker mid-body; `tRunner`'s deferred
function sends the completion value unless it takes the fatal path. -/
def tRunnerSignals (b : BodyRun) : List SigMsg :=
  (if b.parallelCalled then [SigMsg.nilMarker] else []) ++
  (match tRunner b with
   | .completed f s o => [SigMsg.done f s o]
   | .faulted _ _ _ => [])

/-- Whether a signal-channel message is a (non-null) completion value. -/
def isCompletion : SigMsg → Bool
  | .done _ _ _ => true
  | .nilMarker => false

/-- Number of completion values delivered on the channel. -/
def completionCount (ms : List SigMsg) : Nat := ms.countP (fun m => isCompletion m)

/-- The four terminal states of a Context. -/
inductive Terminal
  | normalFinish
  | skippedT
  | failedNow
  | fault
  deriving DecidableEq, Repr

/-- The unique terminal state a body run ends in. -/
def terminalOf (b : BodyRun) : Terminal :=
  if isFault b then .fault
  else if b.skipped then .skippedT
  else if b.failed then .failedNow
  else .normalFinish

/-- Exit status of a Go process killed by an unrecovered panic.
Modelled from the spec: the Go runtime aborts the whole process with a
non-zero status (2 in practice) when a panic is not recovered; the
runtime itself is an external collaborator, not part of this
repository. -/
def goPanicExitCode : Nat := 2

/-! ## The scheduler: `RunTasks`

The scheduler's task-side behaviour is summarised per task, exactly the
data `tRunner` eventually delivers on the channel; the nondeterminism of
`startParallel <- true` (which waiting goroutine wakes) and of
`<-collector` (which completed task arrives first) is an oracle
`Nat → Nat` picking an index at each loop iteration. -/

/-- A registry entry together with the behaviour summary of its body:
whether it declares `Parallel`, and the flags/output with which it
eventually completes.  (A faulting body never completes: it aborts the
whole process through `tRunner`'s fatal path, so completion-level runs
are over non-faulting bodies.) -/
structure TaskSpec where
  name : String
  par : Bool
  failed : Bool
  skipped : Bool
  output : String
  deriving DecidableEq, Repr

/-- The `TaskRes` a `TaskSpec` delivers when run at sweep degree
`procs`. -/
def toRes (procs : Nat) (t : TaskSpec) : TaskRes :=
  ⟨taskName procs t.name, t.failed, t.skipped, t.output⟩

/-- Remove and return the `i`-th element of a list (used to model the
oracle's pick of one goroutine among the waiting/completed ones);
`none` on the empty list.  Callers always pass `i < l.length`; the
out-of-range fallback returns the head. -/
def pickIdx : List α → Nat → Option (α × List α)
  | [], _ => none
  | x :: xs, 0 => some (x, xs)
  | x :: xs, i + 1 =>
    match pickIdx xs i with
    | none => some (x, xs)
    | some (y, ys) => some (y, x :: ys)

theorem pickIdx_length {l : List α} {i : Nat} {y : α} {ys : List α}
    (h : pickIdx l i = some (y, ys)) : ys.length + 1 = l.length := by
  induction l generalizing i y ys with
  | nil => simp [pickIdx] at h
  | cons x xs ih =>
    cases i with
    | zero => simp [pickIdx] at h; simp [← h.2]
    | succ i =>
      simp only [pickIdx] at h
      cases hp : pickIdx xs i with
      | none => rw [hp] at h; simp at h; simp [← h.2]
      | some p =>
        rw [hp] at h
        obtain ⟨y', ys'⟩ := p
        simp at h
        obtain ⟨h1, h2⟩ := h
        rw [← h2]
        simpa using ih hp

theorem pickIdx_perm {l : List α} {i : Nat} {y : α} {ys : List α}
    (h : pickIdx l i = some (y, ys)) : l.Perm (y :: ys) := by
  induction l generalizing i y ys with
  | nil => simp [pickIdx] at h
  | cons x xs ih =>
    cases i with
    | zero => simp [pickIdx] at h; rw [h.1, h.2]
    | succ i =>
      simp only [pickIdx] at h
      cases hp : pickIdx xs i with
      | none => rw [hp] at h; simp at h; rw [h.1, h.2]
      | some p =>
        rw [hp] at h
        obtain ⟨y', ys'⟩ := p
        simp at h
        obtain ⟨h1, h2⟩ := h
        rw [← h1, ← h2]
        exact (List.Perm.cons x (ih hp)).trans (List.Perm.swap y' x ys')

theorem pickIdx_isSome {l : List α} {i : Nat} (h : l ≠ []) :
    (pickIdx l i).isSome := by
  induction l generalizing i with
  | nil => exact absurd rfl h
  | cons x xs ih =>
    cases i with
    | zero => simp [pickIdx]
    | succ i =>
      simp only [pickIdx]
      cases hp : pickIdx xs i with
      | none => simp
      | some p => simp

/-- Result of the drain loop: the completions in the order the collector
delivered them, and the largest number of simultaneously admitted
(released, still running) parallel tasks seen. -/
structure DrainOut where
  reports : List TaskRes
  maxRun : Nat
  deriving DecidableEq, Repr

/-- The drain loop of `RunTasks`:

```
running := 0
for numParallel+running > 0 {
    if running < *parallel && numParallel > 0 {
        startParallel <- true; running++; numParallel--
    } else {
        t := <-collector; t.report(); ok = ok && !t.Failed(); running--
    }
}
```

`pending`/`running` are the waiting and the admitted-but-undrained
tasks; `oracle n` picks which waiter wakes (admission) or which
completion arrives (drain) at iteration `n`.  `fuel` bounds the
recursion; `2 * pending.length + running.length` steps always suffice.
With `K = 0` and tasks still pending the Go loop deadlocks; the model
then stops returning the reports so far. -/
def drain (K : Nat) (oracle : Nat → Nat) :
    Nat → Nat → List TaskRes → List TaskRes → DrainOut
  | 0, _, _, running => ⟨[], running.length⟩
  | fuel + 1, n, pending, running =>
    if pending.length + running.length == 0 then ⟨[], running.length⟩
    else if running.length < K && 0 < pending.length then
      match pickIdx pending (oracle n % pending.length) with
      | none => ⟨[], running.length⟩
      | some (t, rest) =>
        let r := drain K oracle fuel (n + 1) rest (t :: running)
        ⟨r.reports, max (running.length + 1) r.maxRun⟩
    else
      match pickIdx running (oracle n % running.length) with
      | none => ⟨[], running.length⟩
      | some (t, rest) =>
        let r := drain K oracle fuel (n + 1) pending rest
        ⟨t :: r.reports, max running.length r.maxRun⟩


/-- Two permuted lists agree on `List.all`. -/
theorem perm_all_eq {l₁ l₂ : List α} (h : l₁.Perm l₂) (p : α → Bool) :
    l₁.all p = l₂.all p := by
  induction h with
  | nil => rfl
  | cons x _ ih => simp [List.all_cons, ih]
  | swap x y l => simp only [List.all_cons, ← Bool.and_assoc, Bool.and_comm (p y) (p x)]
  | trans _ _ ih₁ ih₂ => rw [ih₁, ih₂]

/-- The number of simultaneously admitted parallel tasks never exceeds
`K`: admission is guarded by `running < *parallel`. -/
theorem drain_maxRun_le (K : Nat) (oracle : Nat → Nat) (fuel n : Nat)
    (pending running : List TaskRes) (h : running.length ≤ K) :
    (drain K oracle fuel n pending running).maxRun ≤ K := by
  induction fuel generalizing n pending running with
  | zero => exact h
  | succ fuel ih =>
    simp only [drain]
    split
    · exact h
    · split
      · next hadm =>
        split
        · exact h
        · next t rest hp =>
          have hlt : running.length < K := by
            have := (Bool.and_eq_true _ _).mp hadm
            simpa using this.1
          have h2 := ih (n + 1) rest (t :: running)
            (by simp only [List.length_cons]; omega)
          exact Nat.max_le.mpr ⟨by omega, h2⟩
      · next hadm =>
        split
        · exact h
        · next t rest hr =>
          have hlen := pickIdx_length hr
          have h2 := ih (n + 1) pending rest (by omega)
          exact Nat.max_le.mpr ⟨h, h2⟩

/-- Given at least one unit of admission capacity and enough fuel, the
drain loop delivers every pending and every running task exactly once:
the report list is a permutation of `pending ++ running`. -/
theorem drain_reports_perm (K : Nat) (oracle : Nat → Nat) (fuel n : Nat)
    (pending running : List TaskRes) (hK : 1 ≤ K)
    (hfuel : 2 * pending.length + running.length ≤ fuel) :
    (drain K oracle fuel n pending running).reports.Perm (pending ++ running) := by
  induction fuel generalizing n pending running with
  | zero =>
    have hp : pending = [] := List.length_eq_zero.mp (by omega)
    have hr : running = [] := List.length_eq_zero.mp (by omega)
    subst hp; subst hr
    exact List.Perm.refl _
  | succ fuel ih =>
    simp only [drain]
    split
    · next h0 =>
      have h0' : pending.length + running.length = 0 := by simpa using h0
      have hp : pending = [] := List.length_eq_zero.mp (by omega)
      have hr : running = [] := List.length_eq_zero.mp (by omega)
      subst hp; subst hr
      exact List.Perm.refl _
    · next h0 =>
      split
      · next hadm =>
        have hpos : 0 < pending.length := by
          have := (Bool.and_eq_true _ _).mp hadm
          simpa using this.2
        have hne : pending ≠ [] := by
          intro he; rw [he] at hpos; simp at hpos
        split
        · next hp =>
          exact absurd (pickIdx_isSome (i := oracle n % pending.length) hne)
            (by simp [hp])
        · next t rest hp =>
          have hlen := pickIdx_length hp
          have hperm := ih (n + 1) rest (t :: running)
            (by simp only [List.length_cons]; omega)
          exact hperm.trans
            (List.perm_middle.trans (((pickIdx_perm hp).symm).append_right running))
      · next hadm =>
        have hrne : running ≠ [] := by
          intro he
          apply hadm
          subst he
          have hp0 : 0 < pending.length := by
            rcases Nat.eq_zero_or_pos pending.length with hz | hz
            · exact absurd (by simp [hz]) h0
            · exact hz
          exact (Bool.and_eq_true _ _).mpr
            ⟨decide_eq_true (by simpa using hK), decide_eq_true hp0⟩
        split
        · next hr =>
          exact absurd (pickIdx_isSome (i := oracle n % running.length) hrne)
            (by simp [hr])
        · next t rest hr =>
          have hlen := pickIdx_length hr
          have hperm := ih (n + 1) pending rest (by omega)
          exact (hperm.cons t).trans
            (List.perm_middle.symm.trans (((pickIdx_perm hr).symm).append_left pending))


/-! ## The serial walk of `RunTasks`, the degree loop and `Main` -/

/-- Abort information for the `os.Exit(1)` path of `RunTasks` (invalid
`-task.run` pattern): the stderr message, the exit code, and the stdout
text and launched tasks accumulated before the abort. -/
structure AbortInfo where
  errMsg : String
  exitCode : Nat
  out : String
  launched : List String
  deriving DecidableEq, Repr

/-- Accumulator of the registry walk of one degree: the running `ok`
aggregate, stdout text, launched (suffixed) task names, serially
reported tasks in order, and detached parallel tasks in detach order. -/
structure WalkAcc where
  ok : Bool
  out : String
  launched : List String
  reports : List TaskRes
  pending : List TaskRes
  deriving DecidableEq, Repr

/-- The registry walk of `RunTasks` for one degree: skip non-matching
entries, abort on a matcher error, print `=== RUN` when chatty, launch
the task, and on the first signal either detach it (nil marker from
`Parallel`) or report it and fold its status into `ok`. -/
def serialWalk (chatty : Bool) (matcher : String → Except String Bool)
    (secsFor : String → String) (procs : Nat) :
    List TaskSpec → WalkAcc → Except AbortInfo WalkAcc
  | [], acc => .ok acc
  | t :: rest, acc =>
    match matcher t.name with
    | .error e =>
      .error ⟨"tasking: invalid regexp for -task.run: " ++ e ++ "\n", 1,
              acc.out, acc.launched⟩
    | .ok false => serialWalk chatty matcher secsFor procs rest acc
    | .ok true =>
      let res := toRes procs t
      let out := acc.out ++ (if chatty then "=== RUN " ++ res.name ++ "\n" else "")
      let launched := acc.launched ++ [res.name]
      if t.par then
        serialWalk chatty matcher secsFor procs rest
          ⟨acc.ok, out, launched, acc.reports, acc.pending ++ [res]⟩
      else
        serialWalk chatty matcher secsFor procs rest
          ⟨acc.ok && !res.failed, out ++ reportStr chatty (secsFor res.name) res,
           launched, acc.reports ++ [res], acc.pending⟩

/-- The `t.report()` output of the drain loop, concatenated in the order
the collector delivered the completions. -/
def drainOutStr (chatty : Bool) (secsFor : String → String) : List TaskRes → String
  | [] => ""
  | r :: rest => reportStr chatty (secsFor r.name) r ++ drainOutStr chatty secsFor rest

/-- The repeated `ok = ok && !t.Failed()` of the drain loop. -/
def okFold : Bool → List TaskRes → Bool
  | b, [] => b
  | b, r :: rest => okFold (b && !r.failed) rest

/-- Result of one degree of `RunTasks`. -/
structure DegreeOut where
  ok : Bool
  out : String
  launched : List String
  reports : List TaskRes
  maxRun : Nat
  deriving DecidableEq, Repr

/-- One iteration of the `cpuList` loop of `RunTasks`: fresh collector
and `startParallel` gate (the fresh `pending`/`running` lists of
`drain`), the registry walk, then the drain loop. -/
def runDegree (chatty : Bool) (K : Nat) (oracle : Nat → Nat)
    (matcher : String → Except String Bool) (secsFor : String → String)
    (procs : Nat) (tasks : List TaskSpec) (ok0 : Bool) :
    Except AbortInfo DegreeOut :=
  match serialWalk chatty matcher secsFor procs tasks ⟨ok0, "", [], [], []⟩ with
  | .error a => .error a
  | .ok acc =>
    let d := drain K oracle (2 * acc.pending.length) 0 acc.pending []
    .ok ⟨okFold acc.ok d.reports,
         acc.out ++ drainOutStr chatty secsFor d.reports,
         acc.launched, acc.reports ++ d.reports, d.maxRun⟩

/-- Cumulative result of `RunTasks`: the `ok` aggregate and everything
written to the standard streams. -/
structure RunOut where
  ok : Bool
  out : String
  errOut : String
  launched : List String
  reports : List TaskRes
  deriving DecidableEq, Repr

/-- The `for _, procs := range cpuList` loop of `RunTasks`; `di` is the
degree index selecting the oracle of that degree's collector. -/
def runDegrees (chatty : Bool) (K : Nat) (oracle : Nat → Nat → Nat)
    (matcher : String → Except String Bool) (secsFor : String → String)
    (tasks : List TaskSpec) :
    Nat → List Nat → RunOut → Except AbortInfo RunOut
  | _, [], acc => .ok acc
  | di, procs :: restDegrees, acc =>
    match runDegree chatty K (oracle di) matcher secsFor procs tasks acc.ok with
    | .error a =>
      .error { a with out := acc.out ++ a.out, launched := acc.launched ++ a.launched }
    | .ok d =>
      runDegrees chatty K oracle matcher secsFor tasks (di + 1) restDegrees
        ⟨d.ok, acc.out ++ d.out, acc.errOut, acc.launched ++ d.launched,
         acc.reports ++ d.reports⟩

/-- `RunTasks`: warn on an empty registry and return `true`; otherwise
run every configured degree, threading the single `ok` aggregate. -/
def runTasks (chatty : Bool) (K : Nat) (oracle : Nat → Nat → Nat)
    (matcher : String → Except String Bool) (secsFor : String → String)
    (tasks : List TaskSpec) (cpuList : List Nat) : Except AbortInfo RunOut :=
  if tasks.length == 0 then
    .ok ⟨true, "", "tasking: warning: no tasks to run\n", [], []⟩
  else
    runDegrees chatty K oracle matcher secsFor tasks 0 cpuList ⟨true, "", "", [], []⟩

/-- One `Main` event: alarm arm/disarm, a write to stdout or stderr, or
process exit with a code. -/
inductive MainEv
  | arm
  | disarm
  | outEv (s : String)
  | errEv (s : String)
  | exitEv (code : Nat)
  deriving DecidableEq, Repr

/-- `tasking.Main`: `startAlarm(); taskOk := RunTasks(...); stopAlarm();`
then the final `FAIL`/exit-1 or `PASS` line.  `startAlarm`/`stopAlarm`
act only when the configured timeout is positive.  On the `os.Exit(1)`
inside `RunTasks` the process dies there: no disarm, no final line. -/
def gakeMain (chatty : Bool) (K : Nat) (timeout : Int) (oracle : Nat → Nat → Nat)
    (matcher : String → Except String Bool) (secsFor : String → String)
    (tasks : List TaskSpec) (cpuList : List Nat) : List MainEv :=
  (if timeout > 0 then [MainEv.arm] else []) ++
  (match runTasks chatty K oracle matcher secsFor tasks cpuList with
   | .error a => [MainEv.outEv a.out, MainEv.errEv a.errMsg, MainEv.exitEv a.exitCode]
   | .ok r =>
     [MainEv.outEv r.out, MainEv.errEv r.errOut] ++
     (if timeout > 0 then [MainEv.disarm] else []) ++
     (if !r.ok then [MainEv.outEv "FAIL\n", MainEv.exitEv 1]
      else [MainEv.outEv "PASS\n", MainEv.exitEv 0]))

/-- The message of the alarm's deferred fault:
`panic(fmt.Sprintf("task timed out after %v", *timeout))`. -/
def alarmMsg (dur : String) : String := "task timed out after " ++ dur

/-- `startAlarm`: when the configured timeout is positive, the one-shot
timer is armed with a callback that panics with `alarmMsg`; otherwise no
timer exists and expiry is impossible.  `renderDur` is Go's `%v`
rendering of a `time.Duration`. -/
def alarmFire (renderDur : Int → String) (timeout : Int) : Option String :=
  if timeout > 0 then some (alarmMsg (renderDur timeout)) else none

/-! ## The cached `matchString` of the generated main file -/

/-- The two package-level cache variables `matchPat`/`matchRe` of the
generated main file; the compiled regexp is represented by its matching
function. -/
structure MatchCache where
  matchPat : String
  matchRe : Option (String → Bool)

/-- `matchString` of the generated main file: recompile when the cache
is empty or holds a different pattern; on a compile error return the
error (leaving the cache without a compiled regexp); otherwise match.
`compile` is the external `regexp.Compile` collaborator. -/
def matchString (compile : String → Except String (String → Bool))
    (c : MatchCache) (pat str : String) : Except String Bool × MatchCache :=
  match c.matchRe, c.matchPat == pat with
  | some re, true => (.ok (re str), c)
  | _, _ =>
    match compile pat with
    | .error err => (.error err, ⟨pat, none⟩)
    | .ok re => (.ok (re str), ⟨pat, some re⟩)

/-- A sequence of `matchString` calls with one fixed pattern, threading
the cache, as `RunTasks` performs over the registry names. -/
def matchCalls (compile : String → Except String (String → Bool)) (pat : String) :
    MatchCache → List String → List (Except String Bool) × MatchCache
  | c, [] => ([], c)
  | c, s :: rest =>
    match matchString compile c pat s with
    | (r, c') =>
      match matchCalls compile pat c' rest with
      | (rs, c'') => (r :: rs, c'')

/-- A matcher built from a successfully compiled pattern: a pure
predicate on names. -/
def okMatcher (f : String → Bool) : String → Except String Bool :=
  fun n => .ok (f n)

/-- The matched entries of a registry. -/
def matchedTasks (f : String → Bool) (tasks : List TaskSpec) : List TaskSpec :=
  tasks.filter (fun t => f t.name)


/-- The matched serial entries of a registry. -/
def serialMatched (f : String → Bool) (tasks : List TaskSpec) : List TaskSpec :=
  tasks.filter (fun t => f t.name && !t.par)

/-- The matched parallel entries of a registry. -/
def parMatched (f : String → Bool) (tasks : List TaskSpec) : List TaskSpec :=
  tasks.filter (fun t => f t.name && t.par)

/-- The stdout text the registry walk produces over its matched
entries: the chatty `=== RUN` line, and for serial entries the
immediate report. -/
def walkOut (chatty : Bool) (secsFor : String → String) (procs : Nat) :
    List TaskSpec → String
  | [] => ""
  | t :: rest =>
    (if chatty then "=== RUN " ++ taskName procs t.name ++ "\n" else "") ++
    (if t.par then "" else reportStr chatty (secsFor (taskName procs t.name)) (toRes procs t)) ++
    walkOut chatty secsFor procs rest

theorem okFold_eq (b : Bool) (l : List TaskRes) :
    okFold b l = (b && l.all (fun r => !r.failed)) := by
  induction l generalizing b with
  | nil => simp [okFold]
  | cons r rest ih => simp [okFold, ih, Bool.and_assoc]

/-- Full characterisation of the registry walk under a valid (pure)
matcher: no abort, `ok` folds the serial failures, the serial reports
and detached parallel tasks are the matched serial/parallel entries in
registry order, and every matched entry is launched. -/
theorem serialWalk_okMatcher (chatty : Bool) (f : String → Bool)
    (secsFor : String → String) (procs : Nat) (tasks : List TaskSpec)
    (acc : WalkAcc) :
    serialWalk chatty (okMatcher f) secsFor procs tasks acc =
      .ok ⟨acc.ok && (serialMatched f tasks).all (fun t => !t.failed),
           acc.out ++ walkOut chatty secsFor procs (matchedTasks f tasks),
           acc.launched ++ (matchedTasks f tasks).map (fun t => taskName procs t.name),
           acc.reports ++ (serialMatched f tasks).map (toRes procs),
           acc.pending ++ (parMatched f tasks).map (toRes procs)⟩ := by
  induction tasks generalizing acc with
  | nil => simp [serialWalk, matchedTasks, serialMatched, parMatched, walkOut]
  | cons t rest ih =>
    simp only [serialWalk, okMatcher]
    by_cases hf : f t.name
    · simp only [hf]
      by_cases hp : t.par
      · simp only [hp, if_true]
        rw [ih]
        simp [matchedTasks, serialMatched, parMatched, walkOut, List.filter_cons, hf, hp,
              toRes, String.append_assoc, List.append_assoc]
      · simp only [Bool.not_eq_true] at hp
        simp only [hp, Bool.false_eq_true, if_false]
        rw [ih]
        simp [matchedTasks, serialMatched, parMatched, walkOut, List.filter_cons, hf, hp,
              toRes, String.append_assoc, List.append_assoc, Bool.and_assoc]
    · simp only [Bool.not_eq_true] at hf
      simp only [hf]
      rw [ih]
      simp [matchedTasks, serialMatched, parMatched, List.filter_cons, hf]


/-! ## The body unwind discipline: `FailNow` and deferred cleanup

An instruction-level view of a task body, precise enough for the
unwind-to-terminal-operation idiom: `FailNow` marks the task failed,
sets `finished` and exits the goroutine via `runtime.Goexit`, which
runs the deferred functions (most recent first) before `tRunner`'s own
top-of-stack defer finally sends the completion signal. -/

inductive Instr
  | log (s : String)
  | fail
  | failNow
  | skipNow
  | deferC (tag : String)
  | step (tag : String)
  deriving DecidableEq, Repr

/-- An event of one task goroutine. -/
inductive BEv
  | exec (i : Instr)
  | cleanup (tag : String)
  | signal
  deriving DecidableEq, Repr

/-- The mutable task state the body manipulates: the `common` flags and
the goroutine's deferred-function stack (head = most recently
registered). -/
structure BState where
  failed : Bool
  skipped : Bool
  finished : Bool
  defers : List String
  deriving DecidableEq, Repr

/-- The terminal instructions: the ones that unwind the goroutine. -/
def isTerminalI : Instr → Bool
  | .failNow => true
  | .skipNow => true
  | _ => false

/-- The tag of a cleanup-registering instruction. -/
def deferTag : Instr → Option String
  | .deferC tag => some tag
  | _ => none

/-- Execute body instructions in order until the body ends or a terminal
instruction calls `runtime.Goexit`; returns the state, the events, and
whether the goroutine was exited early. -/
def execBody : List Instr → BState → BState × List BEv × Bool
  | [], st => (st, [], false)
  | i :: rest, st =>
    match i with
    | .log s =>
      let r := execBody rest st
      (r.1, BEv.exec (.log s) :: r.2.1, r.2.2)
    | .fail =>
      let r := execBody rest { st with failed := true }
      (r.1, BEv.exec .fail :: r.2.1, r.2.2)
    | .failNow => ({ st with failed := true, finished := true }, [BEv.exec .failNow], true)
    | .skipNow => ({ st with skipped := true, finished := true }, [BEv.exec .skipNow], true)
    | .deferC tag =>
      let r := execBody rest { st with defers := tag :: st.defers }
      (r.1, BEv.exec (.deferC tag) :: r.2.1, r.2.2)
    | .step tag =>
      let r := execBody rest st
      (r.1, BEv.exec (.step tag) :: r.2.1, r.2.2)

/-- One task goroutine at the event level: run the body (`task.F(t)`);
on a normal return `tRunner` sets `finished`; the goroutine teardown
then runs the deferred cleanups LIFO, and `tRunner`'s own top-of-stack
defer sends the completion signal strictly after them. -/
def runTask (body : List Instr) : BState × List BEv :=
  let r := execBody body ⟨false, false, false, []⟩
  let st := if r.2.2 then r.1 else { r.1 with finished := true }
  (st, r.2.1 ++ r.1.defers.map BEv.cleanup ++ [BEv.signal])

/-- The state update of one non-terminal instruction. -/
def stepState (st : BState) : Instr → BState
  | .fail => { st with failed := true }
  | .deferC tag => { st with defers := tag :: st.defers }
  | _ => st

theorem foldl_stepState_skipped (pre : List Instr) (st : BState) :
    (pre.foldl stepState st).skipped = st.skipped := by
  induction pre generalizing st with
  | nil => rfl
  | cons i rest ih =>
    cases i <;> simp [List.foldl_cons, stepState, ih]

theorem foldl_stepState_defers (pre : List Instr) (st : BState) :
    (pre.foldl stepState st).defers = (pre.filterMap deferTag).reverse ++ st.defers := by
  induction pre generalizing st with
  | nil => rfl
  | cons i rest ih =>
    cases i <;>
      simp [List.foldl_cons, stepState, deferTag, List.filterMap_cons, ih,
            List.append_assoc]

/-- A body prefix of non-terminal instructions executes in order and the
first `failNow` ends it: state threaded through the prefix, then failed
and finished set, goroutine exited, nothing after `failNow` executed. -/
theorem execBody_failNow (pre post : List Instr) (st : BState)
    (hpre : pre.all (fun i => !isTerminalI i)) :
    execBody (pre ++ Instr.failNow :: post) st =
      ({ pre.foldl stepState st with failed := true, finished := true },
       pre.map BEv.exec ++ [BEv.exec Instr.failNow], true) := by
  induction pre generalizing st with
  | nil => rfl
  | cons i rest ih =>
    simp only [List.all_cons, Bool.and_eq_true] at hpre
    have hi := hpre.1
    have hrest := hpre.2
    cases i with
    | log s =>
      simp only [List.cons_append, execBody, List.append_eq]
      rw [ih _ hrest]
      simp [List.foldl_cons, stepState]
    | fail =>
      simp only [List.cons_append, execBody, List.append_eq]
      rw [ih _ hrest]
      simp [List.foldl_cons, stepState]
    | failNow => simp [isTerminalI] at hi
    | skipNow => simp [isTerminalI] at hi
    | deferC tag =>
      simp only [List.cons_append, execBody, List.append_eq]
      rw [ih _ hrest]
      simp [List.foldl_cons, stepState]
    | step tag =>
      simp only [List.cons_append, execBody, List.append_eq]
      rw [ih _ hrest]
      simp [List.foldl_cons, stepState]


theorem matched_all_split (l : List TaskSpec) (f : String → Bool) (p : TaskSpec → Bool) :
    (matchedTasks f l).all p = ((serialMatched f l).all p && (parMatched f l).all p) := by
  induction l with
  | nil => rfl
  | cons t rest ih =>
    simp only [matchedTasks, serialMatched, parMatched] at ih ⊢
    cases hf : f t.name <;> cases hp : t.par <;>
      simp [List.filter_cons, hf, hp, List.all_cons, ih, -List.all_filter]
    · exact (Bool.and_assoc _ _ _).symm
    · exact (Bool.and_left_comm _ _ _)

theorem matched_perm_split (l : List TaskSpec) (f : String → Bool) :
    (matchedTasks f l).Perm (serialMatched f l ++ parMatched f l) := by
  induction l with
  | nil => simp [matchedTasks, serialMatched, parMatched]
  | cons t rest ih =>
    by_cases hf : f t.name
    · by_cases hp : t.par
      · simp only [matchedTasks, serialMatched, parMatched, List.filter_cons, hf, hp,
                   Bool.and_true, Bool.and_false, Bool.not_true, decide_True,
                   Bool.true_and, if_true, if_false]
        exact (ih.cons t).trans List.perm_middle.symm
      · simp only [Bool.not_eq_true] at hp
        simp only [matchedTasks, serialMatched, parMatched, List.filter_cons, hf, hp,
                   Bool.and_true, Bool.and_false, Bool.not_false, decide_True,
                   Bool.true_and, if_true, if_false]
        exact ih.cons t
    · simp only [Bool.not_eq_true] at hf
      simpa [matchedTasks, serialMatched, parMatched, List.filter_cons, hf] using ih

/-- Full characterisation of one degree of `RunTasks` under a valid
matcher: no abort; the result aggregate is the incoming one ANDed with
the non-failed status of every matched task; the reports are exactly
the matched tasks (serial ones in registry order, parallel ones in some
collector order); at most `K` parallel tasks are ever admitted at once;
every matched task is launched. -/
theorem runDegree_okMatcher (chatty : Bool) (K : Nat) (oracle : Nat → Nat)
    (f : String → Bool) (secsFor : String → String) (procs : Nat)
    (tasks : List TaskSpec) (ok0 : Bool) (hK : 1 ≤ K) :
    ∃ d, runDegree chatty K oracle (okMatcher f) secsFor procs tasks ok0 = .ok d ∧
      d.ok = (ok0 && (matchedTasks f tasks).all (fun t => !t.failed)) ∧
      d.reports.Perm ((matchedTasks f tasks).map (toRes procs)) ∧
      d.maxRun ≤ K ∧
      d.launched = (matchedTasks f tasks).map (fun t => taskName procs t.name) ∧
      d.reports = (serialMatched f tasks).map (toRes procs) ++
        (drain K oracle (2 * ((parMatched f tasks).map (toRes procs)).length) 0
          ((parMatched f tasks).map (toRes procs)) []).reports := by
  unfold runDegree
  rw [serialWalk_okMatcher]
  simp only [List.nil_append, String.empty_append]
  have hdperm : (drain K oracle (2 * ((parMatched f tasks).map (toRes procs)).length) 0
      ((parMatched f tasks).map (toRes procs)) []).reports.Perm
      ((parMatched f tasks).map (toRes procs)) := by
    have := drain_reports_perm K oracle
      (2 * ((parMatched f tasks).map (toRes procs)).length) 0
      ((parMatched f tasks).map (toRes procs)) [] hK (by simp)
    simpa using this
  have hP_all : ((parMatched f tasks).map (toRes procs)).all (fun r => !r.failed) =
      (parMatched f tasks).all (fun t => !t.failed) := by
    generalize parMatched f tasks = l
    induction l with
    | nil => rfl
    | cons t rest ih => simp [List.all_cons, ih, toRes]
  refine ⟨_, rfl, ?_, ?_, ?_, rfl, rfl⟩
  · show okFold (ok0 && (serialMatched f tasks).all (fun t => !t.failed)) _ = _
    rw [okFold_eq, perm_all_eq hdperm, hP_all, matched_all_split tasks f,
        Bool.and_assoc]
  · show ((serialMatched f tasks).map (toRes procs) ++ _).Perm _
    refine (List.Perm.append_left _ hdperm).trans ?_
    rw [← List.map_append]
    exact ((matched_perm_split tasks f).map (toRes procs)).symm
  · exact drain_maxRun_le K oracle _ 0 _ [] (by simp [hK])

/-- The degree loop under a valid matcher: never aborts, the final
aggregate is the incoming one ANDed degree-wise, and stderr is
untouched. -/
theorem runDegrees_okMatcher (chatty : Bool) (K : Nat) (oracle : Nat → Nat → Nat)
    (f : String → Bool) (secsFor : String → String) (tasks : List TaskSpec)
    (hK : 1 ≤ K) (cpuList : List Nat) :
    ∀ (di : Nat) (acc : RunOut),
    ∃ r, runDegrees chatty K oracle (okMatcher f) secsFor tasks di cpuList acc = .ok r ∧
      r.ok = (acc.ok && cpuList.all (fun _ => (matchedTasks f tasks).all (fun t => !t.failed))) ∧
      r.errOut = acc.errOut := by
  induction cpuList with
  | nil => intro di acc; exact ⟨acc, rfl, by simp, rfl⟩
  | cons procs rest ih =>
    intro di acc
    obtain ⟨d, hd, hok, hperm, hmax, hlaunch, hrep⟩ :=
      runDegree_okMatcher chatty K (oracle di) f secsFor procs tasks acc.ok hK
    obtain ⟨r, hr, hrok, hrerr⟩ := ih (di + 1)
      ⟨d.ok, acc.out ++ d.out, acc.errOut, acc.launched ++ d.launched,
       acc.reports ++ d.reports⟩
    refine ⟨r, ?_, ?_, by simpa using hrerr⟩
    · simp only [runDegrees, hd]
      exact hr
    · rw [hrok]
      simp only [hok, List.all_cons, Bool.and_assoc]

/-- Every call of the generated `matchString` with a successfully
compiling fixed pattern returns the compiled predicate's verdict,
through any cache states the call sequence itself produces. -/
theorem matchCalls_ok (compile : String → Except String (String → Bool))
    (pat : String) (g : String → Bool) (hc : compile pat = .ok g)
    (names : List String) :
    ∀ c : MatchCache, c.matchPat = pat → (c.matchRe = none ∨ c.matchRe = some g) →
    (matchCalls compile pat c names).1 = names.map (fun s => .ok (g s)) := by
  induction names with
  | nil => intro c _ _; rfl
  | cons s rest ih =>
    intro c hpat hre
    rcases hre with hre | hre
    · have hms : matchString compile c pat s = (.ok (g s), ⟨pat, some g⟩) := by
        unfold matchString
        rw [hre]
        simp [hc]
      simp only [matchCalls, hms]
      rw [ih ⟨pat, some g⟩ rfl (Or.inr rfl)]
      simp
    · have hms : matchString compile c pat s = (.ok (g s), c) := by
        unfold matchString
        rw [hre, hpat]
        simp
      simp only [matchCalls, hms]
      rw [ih c hpat (Or.inr hre)]
      simp

/-- Every call of the generated `matchString` with a pattern that fails
to compile returns that error: the compile failure leaves no compiled
regexp in the cache, so each call recompiles and fails again. -/
theorem matchCalls_err (compile : String → Except String (String → Bool))
    (pat e : String) (hc : compile pat = .error e) (names : List String) :
    ∀ c : MatchCache, c.matchRe = none →
    (matchCalls compile pat c names).1 = names.map (fun _ => .error e) := by
  induction names with
  | nil => intro c _; rfl
  | cons s rest ih =>
    intro c hre
    have hms : matchString compile c pat s = (.error e, ⟨pat, none⟩) := by
      unfold matchString
      rw [hre]
      simp [hc]
    simp only [matchCalls, hms]
    rw [ih ⟨pat, none⟩ rfl]
    simp

/-- The standard-output text of a `Main` event trace. -/
def mainStdout : List MainEv → String
  | [] => ""
  | .outEv s :: rest => s ++ mainStdout rest
  | _ :: rest => mainStdout rest


/-! ## Claims -/

/-- **C1, counterexample.** A task whose body panics reaches the
unrecovered-fault terminal state but never signals completion on its
handoff channel: `tRunner`'s deferred function re-panics before the
`t.signal <- t` send, so the completion count is 0, not the claimed
exactly-once. -/
theorem claim_C1_counterexample :
    completionCount (tRunnerSignals
      ⟨BodyExit.panicked "boom", false, false, false, "", false⟩) ≠ 1 := by
  decide

/-- **C1 (amended).** Every launched task's Context reaches exactly one
terminal state (normal finish, skip, fail-now, or unrecovered fault).  A
task ending in one of the three non-fault states signals completion on
its handoff channel exactly once — the non-null completion value — while
a faulted task signals no completion and instead propagates the fault;
the Scheduler distinguishes a detached parallel task from a serially
finished one by the null marker versus the non-null completion value
being the first message on the channel, the channel handoff itself being
the synchronisation point. -/
theorem claim_C1 (b : BodyRun) :
    (terminalOf b = .fault ↔ isFault b = true) ∧
    (isFault b = false →
      completionCount (tRunnerSignals b) = 1 ∧
      tRunnerSignals b =
        (if b.parallelCalled then [SigMsg.nilMarker] else []) ++
          [SigMsg.done b.failed b.skipped b.output] ∧
      ((tRunnerSignals b).head? = some SigMsg.nilMarker ↔ b.parallelCalled = true)) ∧
    (isFault b = true →
      completionCount (tRunnerSignals b) = 0 ∧
      tRunner b = .faulted ((recoveredErr b).getD "") true b.output) := by
  refine ⟨?_, ?_, ?_⟩
  · unfold terminalOf
    cases hfb : isFault b <;> cases hs : b.skipped <;> cases hl : b.failed <;> simp
  · intro h
    have hre : recoveredErr b = none := by
      cases hr : recoveredErr b with
      | none => rfl
      | some m => simp [isFault, hr] at h
    refine ⟨?_, ?_, ?_⟩
    · cases hp : b.parallelCalled <;>
        simp [tRunnerSignals, tRunner, hre, completionCount, isCompletion, hp]
    · cases hp : b.parallelCalled <;> simp [tRunnerSignals, tRunner, hre, hp]
    · cases hp : b.parallelCalled <;> simp [tRunnerSignals, tRunner, hre, hp]
  · intro h
    have hre : ∃ m, recoveredErr b = some m :=
      Option.isSome_iff_exists.mp (by simpa [isFault] using h)
    obtain ⟨m, hm⟩ := hre
    constructor
    · cases hp : b.parallelCalled <;>
        simp [completionCount, tRunnerSignals, tRunner, hm, hp, isCompletion]
    · simp [tRunner, hm]

/-- **C1, witness.** A plain returning body signals exactly one
completion. -/
theorem claim_C1_witness :
    completionCount (tRunnerSignals ⟨BodyExit.ret, false, false, false, "", false⟩) = 1 :=
  ((claim_C1 ⟨BodyExit.ret, false, false, false, "", false⟩).2.1 (by decide)).1

/-- **C4.** A task goroutine that exits without reaching a terminal
state — an unrecovered panic, or exiting (via `runtime.Goexit` or
`panic(nil)`) without the `finished` flag set — takes the fatal
double-fault path of `tRunner`'s deferred function: the task is marked
failed, its accumulated log is in the emitted report, no completion is
ever signalled, and the fault is re-panicked past the Scheduler,
aborting the entire run with a non-zero exit. -/
theorem claim_C4 (b : BodyRun)
    (h : (∃ m, b.exit = .panicked m) ∨ (b.exit = .goexit ∧ b.finished = false)) :
    isFault b = true ∧
    (∃ m, tRunner b = .faulted m true b.output) ∧
    completionCount (tRunnerSignals b) = 0 ∧
    goPanicExitCode ≠ 0 := by
  have hre : ∃ m, recoveredErr b = some m := by
    rcases h with ⟨m, hm⟩ | ⟨hg, hf⟩
    · exact ⟨m, by simp [recoveredErr, hm]⟩
    · exact ⟨"task executed panic(nil) or runtime.Goexit",
        by simp [recoveredErr, hg, finishedAfterBody, hf]⟩
  obtain ⟨m, hm⟩ := hre
  refine ⟨by simp [isFault, hm], ⟨m, by simp [tRunner, hm]⟩, ?_, by decide⟩
  cases hp : b.parallelCalled <;>
    simp [completionCount, tRunnerSignals, tRunner, hm, hp, isCompletion]

/-- **C4, witness.** A panicking body at a concrete input delivers no
completion signal. -/
theorem claim_C4_witness :
    completionCount (tRunnerSignals
      ⟨BodyExit.panicked "boom", false, false, false, "\tx_task.go:3: hi\n", false⟩) = 0 :=
  (claim_C4 _ (Or.inl ⟨"boom", rfl⟩)).2.2.1


/-- **C2.** For every registry of N tasks that all declare `Parallel`
and every `maxParallel = K ≥ 1`, under any admission/collection
interleaving: the drain loop never has more than K tasks concurrently
admitted, every one of the N tasks is reported exactly once (the
reports are a permutation of the registry, all of them delivered by the
drain loop), and the degree aggregate is the incoming aggregate ANDed
with the non-failed status of every task. -/
theorem claim_C2 (tasks : List TaskSpec) (K : Nat) (oracle : Nat → Nat)
    (chatty : Bool) (secsFor : String → String) (procs : Nat) (ok0 : Bool)
    (hK : 1 ≤ K) (hpar : ∀ t ∈ tasks, t.par = true) :
    ∃ d, runDegree chatty K oracle (okMatcher (fun _ => true)) secsFor procs tasks ok0 =
        .ok d ∧
      d.maxRun ≤ K ∧
      d.reports.Perm (tasks.map (toRes procs)) ∧
      d.ok = (ok0 && tasks.all (fun t => !t.failed)) ∧
      d.reports = (drain K oracle (2 * (tasks.map (toRes procs)).length) 0
        (tasks.map (toRes procs)) []).reports := by
  obtain ⟨d, hd, hok, hperm, hmax, hlaunch, hrep⟩ :=
    runDegree_okMatcher chatty K oracle (fun _ => true) secsFor procs tasks ok0 hK
  have hm : matchedTasks (fun _ => true) tasks = tasks := by
    simp [matchedTasks]
  have hserM : serialMatched (fun _ => true) tasks = [] := by
    rw [serialMatched, List.filter_eq_nil_iff]
    intro t ht
    simp [hpar t ht]
  have hparM : parMatched (fun _ => true) tasks = tasks := by
    rw [parMatched, List.filter_eq_self]
    intro t ht
    simp [hpar t ht]
  refine ⟨d, hd, hmax, ?_, ?_, ?_⟩
  · rw [hm] at hperm; exact hperm
  · rw [hok, hm]
  · rw [hrep, hserM, hparM]
    simp

/-- **C2, witness.** A concrete three-task all-parallel registry with
`K = 2`. -/
theorem claim_C2_witness :
    ∃ d, runDegree false 2 (fun n => n) (okMatcher (fun _ => true)) (fun _ => "0.00") 1
        ([⟨"A", true, false, false, ""⟩, ⟨"B", true, true, false, ""⟩,
          ⟨"C", true, false, false, ""⟩] : List TaskSpec) true = .ok d ∧
      d.maxRun ≤ 2 ∧
      d.reports.Perm (([⟨"A", true, false, false, ""⟩, ⟨"B", true, true, false, ""⟩,
          ⟨"C", true, false, false, ""⟩] : List TaskSpec).map (toRes 1)) ∧
      d.ok = (true && ([⟨"A", true, false, false, ""⟩, ⟨"B", true, true, false, ""⟩,
          ⟨"C", true, false, false, ""⟩] : List TaskSpec).all (fun t => !t.failed)) ∧
      d.reports = (drain 2 (fun n => n)
        (2 * (([⟨"A", true, false, false, ""⟩, ⟨"B", true, true, false, ""⟩,
          ⟨"C", true, false, false, ""⟩] : List TaskSpec).map (toRes 1)).length) 0
        (([⟨"A", true, false, false, ""⟩, ⟨"B", true, true, false, ""⟩,
          ⟨"C", true, false, false, ""⟩] : List TaskSpec).map (toRes 1)) []).reports :=
  claim_C2 _ 2 (fun n => n) false (fun _ => "0.00") 1 true (by decide) (by decide)

/-- **C5.** After a task calls `failNow()` no instruction of the body
after that call executes; cleanup registered (deferred) before the call
still runs, most recent first, and all of it completes strictly before
the completion signal — the last event — is delivered; the task ends
failed (and not skipped) with `finished` set.  Moreover the scheduler
keeps going: in an all-serial registry every task is reported, so
execution continues at the task after a `failNow` one. -/
theorem claim_C5 (pre post : List Instr)
    (hpre : pre.all (fun i => !isTerminalI i))
    (chatty : Bool) (K : Nat) (oracle : Nat → Nat) (secsFor : String → String)
    (procs : Nat) (ok0 : Bool) (tasks : List TaskSpec)
    (hK : 1 ≤ K) (hser : ∀ t ∈ tasks, t.par = false) :
    runTask (pre ++ Instr.failNow :: post) =
      (⟨true, false, true, (pre.filterMap deferTag).reverse⟩,
       pre.map BEv.exec ++ [BEv.exec Instr.failNow] ++
         ((pre.filterMap deferTag).reverse).map BEv.cleanup ++ [BEv.signal]) ∧
    (∃ d, runDegree chatty K oracle (okMatcher (fun _ => true)) secsFor procs tasks ok0 =
        .ok d ∧ d.reports = tasks.map (toRes procs)) := by
  constructor
  · unfold runTask
    rw [execBody_failNow pre post _ hpre]
    have hsk := foldl_stepState_skipped pre ⟨false, false, false, []⟩
    have hdf := foldl_stepState_defers pre ⟨false, false, false, []⟩
    simp [hsk, hdf, List.append_assoc]
  · obtain ⟨d, hd, hok, hperm, hmax, hlaunch, hrep⟩ :=
      runDegree_okMatcher chatty K oracle (fun _ => true) secsFor procs tasks ok0 hK
    have hserM : serialMatched (fun _ => true) tasks = tasks := by
      rw [serialMatched, List.filter_eq_self]
      intro t ht
      simp [hser t ht]
    have hparM : parMatched (fun _ => true) tasks = [] := by
      rw [parMatched, List.filter_eq_nil_iff]
      intro t ht
      simp [hser t ht]
    refine ⟨d, hd, ?_⟩
    rw [hrep, hserM, hparM]
    simp [drain]

/-- **C5, witness.** A concrete body with two cleanups registered before
`failNow` and an unreachable instruction after it, next to a two-task
serial registry whose first task fails. -/
theorem claim_C5_witness :
    runTask ([Instr.log "a", Instr.deferC "c1", Instr.fail, Instr.deferC "c2"] ++
        Instr.failNow :: [Instr.step "unreachable"]) =
      (⟨true, false, true,
        (([Instr.log "a", Instr.deferC "c1", Instr.fail,
           Instr.deferC "c2"]).filterMap deferTag).reverse⟩,
       ([Instr.log "a", Instr.deferC "c1", Instr.fail,
         Instr.deferC "c2"]).map BEv.exec ++ [BEv.exec Instr.failNow] ++
         ((([Instr.log "a", Instr.deferC "c1", Instr.fail,
            Instr.deferC "c2"]).filterMap deferTag).reverse).map BEv.cleanup ++
         [BEv.signal]) ∧
    (∃ d, runDegree false 1 (fun _ => 0) (okMatcher (fun _ => true)) (fun _ => "0.00") 1
        ([⟨"T1", false, true, false, ""⟩, ⟨"T2", false, false, false, ""⟩] : List TaskSpec)
        true = .ok d ∧
      d.reports = ([⟨"T1", false, true, false, ""⟩,
        ⟨"T2", false, false, false, ""⟩] : List TaskSpec).map (toRes 1)) :=
  claim_C5 _ _ (by decide) false 1 (fun _ => 0) (fun _ => "0.00") 1 true _
    (by decide) (by decide)


/-- `RunTasks` under a valid matcher never aborts and its aggregate is
the degree-wise AND of the matched tasks' non-failed statuses (an empty
registry short-circuits to `true`, which the same formula gives). -/
theorem runTasks_okMatcher (chatty : Bool) (K : Nat) (oracle : Nat → Nat → Nat)
    (f : String → Bool) (secsFor : String → String)
    (tasks : List TaskSpec) (cpuList : List Nat) (hK : 1 ≤ K) :
    ∃ r, runTasks chatty K oracle (okMatcher f) secsFor tasks cpuList = .ok r ∧
      r.ok = cpuList.all (fun _ => (matchedTasks f tasks).all (fun t => !t.failed)) := by
  unfold runTasks
  split
  · next h0 =>
    have he : tasks = [] := List.length_eq_zero.mp (by simpa using h0)
    subst he
    refine ⟨_, rfl, ?_⟩
    simp [matchedTasks]
  · obtain ⟨r, hr, hok, herr⟩ :=
      runDegrees_okMatcher chatty K oracle f secsFor tasks hK cpuList 0 ⟨true, "", "", [], []⟩
    exact ⟨r, hr, by simpa using hok⟩

/-- **C3.** Under any valid pattern the per-degree run result is the
logical AND over all matched tasks of their non-failed status, the
overall result is the AND across the configured degrees, and skipping
never counts as failure: when every matched task has `failed = false`
(in particular when they all merely skipped) the aggregate is `true`
and `Main` ends with the `PASS` line and exit code 0. -/
theorem claim_C3 (chatty : Bool) (K : Nat) (oracle : Nat → Nat → Nat)
    (f : String → Bool) (secsFor : String → String)
    (tasks : List TaskSpec) (cpuList : List Nat) (timeout : Int)
    (hK : 1 ≤ K) :
    ∃ r, runTasks chatty K oracle (okMatcher f) secsFor tasks cpuList = .ok r ∧
      r.ok = cpuList.all (fun _ => (matchedTasks f tasks).all (fun t => !t.failed)) ∧
      (∀ procs ok0, ∃ d,
        runDegree chatty K (oracle 0) (okMatcher f) secsFor procs tasks ok0 = .ok d ∧
        d.ok = (ok0 && (matchedTasks f tasks).all (fun t => !t.failed))) ∧
      ((∀ t ∈ matchedTasks f tasks, t.failed = false) →
        r.ok = true ∧
        gakeMain chatty K timeout oracle (okMatcher f) secsFor tasks cpuList =
          (if timeout > 0 then [MainEv.arm] else []) ++
          [MainEv.outEv r.out, MainEv.errEv r.errOut] ++
          (if timeout > 0 then [MainEv.disarm] else []) ++
          [MainEv.outEv "PASS\n", MainEv.exitEv 0]) := by
  obtain ⟨r, hr, hok⟩ := runTasks_okMatcher chatty K oracle f secsFor tasks cpuList hK
  refine ⟨r, hr, hok, ?_, ?_⟩
  · intro procs ok0
    obtain ⟨d, hd, hdok, _, _, _, _⟩ :=
      runDegree_okMatcher chatty K (oracle 0) f secsFor procs tasks ok0 hK
    exact ⟨d, hd, hdok⟩
  · intro hall
    have hmat : (matchedTasks f tasks).all (fun t => !t.failed) = true := by
      rw [List.all_eq_true]
      intro t ht
      simp [hall t ht]
    have hokT : r.ok = true := by
      rw [hok, List.all_eq_true]
      intro x _
      exact hmat
    refine ⟨hokT, ?_⟩
    simp [gakeMain, hr, hokT]

/-- **C3, witness.** A registry whose single matched task skipped
without failing: the run is an overall PASS across degrees `[1, 2]`. -/
theorem claim_C3_witness :
    ∃ r, runTasks false 1 (fun _ _ => 0) (okMatcher (fun _ => true)) (fun _ => "0.00")
        ([⟨"S", false, false, true, "\ts_task.go:4: skipping\n"⟩] : List TaskSpec)
        [1, 2] = .ok r ∧
      r.ok = [1, 2].all (fun _ =>
        (matchedTasks (fun _ => true)
          ([⟨"S", false, false, true, "\ts_task.go:4: skipping\n"⟩] : List TaskSpec)).all
          (fun t => !t.failed)) ∧
      (∀ procs ok0, ∃ d,
        runDegree false 1 ((fun _ _ => 0) 0) (okMatcher (fun _ => true)) (fun _ => "0.00")
          procs ([⟨"S", false, false, true, "\ts_task.go:4: skipping\n"⟩] : List TaskSpec)
          ok0 = .ok d ∧
        d.ok = (ok0 && (matchedTasks (fun _ => true)
          ([⟨"S", false, false, true, "\ts_task.go:4: skipping\n"⟩] : List TaskSpec)).all
          (fun t => !t.failed))) ∧
      ((∀ t ∈ matchedTasks (fun _ => true)
          ([⟨"S", false, false, true, "\ts_task.go:4: skipping\n"⟩] : List TaskSpec),
          t.failed = false) →
        r.ok = true ∧
        gakeMain false 1 0 (fun _ _ => 0) (okMatcher (fun _ => true)) (fun _ => "0.00")
          ([⟨"S", false, false, true, "\ts_task.go:4: skipping\n"⟩] : List TaskSpec) [1, 2] =
          (if (0 : Int) > 0 then [MainEv.arm] else []) ++
          [MainEv.outEv r.out, MainEv.errEv r.errOut] ++
          (if (0 : Int) > 0 then [MainEv.disarm] else []) ++
          [MainEv.outEv "PASS\n", MainEv.exitEv 0]) :=
  claim_C3 false 1 (fun _ _ => 0) (fun _ => true) (fun _ => "0.00") _ [1, 2] 0 (by decide)

/-- **C7.** A matched task's reported name is suffixed `-<degree>`
exactly when the degree being run is not the baseline degree 1: every
reported name is `taskName procs <name>`, which appends `-<procs>` for
`procs ≠ 1` and is the bare name at the baseline; concretely, the sweep
`[1, 2]` over a one-task registry reports `TaskA` and then `TaskA-2`. -/
theorem claim_C7 (procs : Nat) (name : String) (chatty : Bool) (K : Nat)
    (oracle : Nat → Nat) (f : String → Bool) (secsFor : String → String)
    (tasks : List TaskSpec) (ok0 : Bool) (hK : 1 ≤ K) :
    (procs ≠ 1 → taskName procs name = name ++ "-" ++ toString procs) ∧
    (taskName 1 name = name) ∧
    (∃ d, runDegree chatty K oracle (okMatcher f) secsFor procs tasks ok0 = .ok d ∧
      d.reports.Perm ((matchedTasks f tasks).map (toRes procs)) ∧
      ∀ r ∈ d.reports, ∃ t, t ∈ matchedTasks f tasks ∧ r.name = taskName procs t.name) ∧
    ((runTasks false 1 (fun _ _ => 0) (okMatcher (fun _ => true)) (fun _ => "0.00")
        ([⟨"TaskA", false, false, false, ""⟩] : List TaskSpec) [1, 2]).toOption.map
      (fun r2 => r2.reports.map TaskRes.name) = some ["TaskA", "TaskA-2"]) := by
  refine ⟨?_, ?_, ?_, ?_⟩
  · intro h
    simp [taskName, h]
  · simp [taskName]
  · obtain ⟨d, hd, hok, hperm, hmax, hlaunch, hrep⟩ :=
      runDegree_okMatcher chatty K oracle f secsFor procs tasks ok0 hK
    refine ⟨d, hd, hperm, ?_⟩
    intro r hrmem
    obtain ⟨t, ht, hteq⟩ := List.mem_map.mp (hperm.mem_iff.mp hrmem)
    exact ⟨t, ht, by rw [← hteq]; rfl⟩
  · decide

/-- **C7, witness.** A non-baseline degree appends its suffix. -/
theorem claim_C7_witness :
    taskName 2 "TaskX" = "TaskX" ++ "-" ++ toString 2 :=
  (claim_C7 2 "TaskX" false 1 (fun _ => 0) (fun _ => true) (fun _ => "0.00") [] true
    (by decide)).1 (by decide)


/-- **C6.** The empty selector pattern matches every task name (the
empty regular expression compiles and matches any string), while a
pattern that fails to compile is fatal before any task executes: every
`matchString` call returns the compile error (the failed compile leaves
no cached regexp), so `RunTasks` exits with code 1 at the very first
registry entry, with the invalid-regexp message on stderr, an empty
stdout and zero launched tasks — no partial results. -/
theorem claim_C6
    (compile : String → Except String (String → Bool))
    (names : List String) (pat e : String)
    (hempty : compile "" = .ok (fun _ => true))
    (hbad : compile pat = .error e)
    (chatty : Bool) (K : Nat) (oracle : Nat → Nat → Nat) (secsFor : String → String)
    (tasks : List TaskSpec) (cpuList : List Nat)
    (hne : tasks ≠ []) (hcne : cpuList ≠ []) :
    (matchCalls compile "" ⟨"", none⟩ names).1 = names.map (fun _ => .ok true) ∧
    (matchCalls compile pat ⟨"", none⟩ names).1 = names.map (fun _ => .error e) ∧
    runTasks chatty K oracle (fun _ => .error e) secsFor tasks cpuList =
      .error ⟨"tasking: invalid regexp for -task.run: " ++ e ++ "\n", 1, "", []⟩ := by
  refine ⟨?_, ?_, ?_⟩
  · exact matchCalls_ok compile "" (fun _ => true) hempty names ⟨"", none⟩ rfl (Or.inl rfl)
  · exact matchCalls_err compile pat e hbad names ⟨"", none⟩ rfl
  · cases tasks with
    | nil => exact absurd rfl hne
    | cons t0 tr =>
      cases cpuList with
      | nil => exact absurd rfl hcne
      | cons c0 cr =>
        simp [runTasks, runDegrees, runDegree, serialWalk]

/-- **C6, witness.** A concrete compile collaborator for which the empty
pattern matches everything and `"("` fails with error `"bad"`: the run
over a one-task registry aborts with exit 1 having launched nothing. -/
theorem claim_C6_witness :
    (matchCalls (fun p => if p == "" then .ok (fun _ => true) else .error "bad")
      "" ⟨"", none⟩ ["TaskHello"]).1 = ["TaskHello"].map (fun _ => .ok true) ∧
    (matchCalls (fun p => if p == "" then .ok (fun _ => true) else .error "bad")
      "(" ⟨"", none⟩ ["TaskHello"]).1 = ["TaskHello"].map (fun _ => .error "bad") ∧
    runTasks false 1 (fun _ _ => 0) (fun _ => .error "bad") (fun _ => "0.00")
      ([⟨"TaskHello", false, false, false, ""⟩] : List TaskSpec) [1] =
      .error ⟨"tasking: invalid regexp for -task.run: " ++ "bad" ++ "\n", 1, "", []⟩ :=
  claim_C6 (fun p => if p == "" then .ok (fun _ => true) else .error "bad")
    ["TaskHello"] "(" "bad" rfl rfl false 1 (fun _ _ => 0) (fun _ => "0.00")
    _ [1] (by simp) (by simp)

/-- **C8.** The one-shot alarm is armed exactly when a positive
aggregate timeout is configured, and on every run in which `RunTasks`
returns — pass or fail, the failing case being the early abort that
prints `FAIL` and exits 1 — it is disarmed before the final line and
the process exit; on expiry the armed callback raises a fault whose
message names the configured timeout duration, and an unrecovered fault
aborts the process with a non-zero exit status. -/
theorem claim_C8 (chatty : Bool) (K : Nat) (timeout : Int) (oracle : Nat → Nat → Nat)
    (matcher : String → Except String Bool) (secsFor : String → String)
    (tasks : List TaskSpec) (cpuList : List Nat) (renderDur : Int → String) :
    (MainEv.arm ∈ gakeMain chatty K timeout oracle matcher secsFor tasks cpuList ↔
      timeout > 0) ∧
    (∀ r, runTasks chatty K oracle matcher secsFor tasks cpuList = .ok r →
      (MainEv.disarm ∈ gakeMain chatty K timeout oracle matcher secsFor tasks cpuList ↔
        timeout > 0) ∧
      (timeout > 0 →
        gakeMain chatty K timeout oracle matcher secsFor tasks cpuList =
          [MainEv.arm, MainEv.outEv r.out, MainEv.errEv r.errOut, MainEv.disarm,
           MainEv.outEv (if r.ok then "PASS\n" else "FAIL\n"),
           MainEv.exitEv (if r.ok then 0 else 1)])) ∧
    (∀ d, alarmFire renderDur timeout = some d ↔
      (timeout > 0 ∧ d = alarmMsg (renderDur timeout))) ∧
    goPanicExitCode ≠ 0 := by
  refine ⟨?_, ?_, ?_, by decide⟩
  · cases hrt : runTasks chatty K oracle matcher secsFor tasks cpuList with
    | error a =>
      by_cases ht : timeout > 0 <;> simp [gakeMain, hrt, ht]
    | ok r =>
      by_cases ht : timeout > 0 <;> cases hok : r.ok <;> simp [gakeMain, hrt, ht, hok]
  · intro r hr
    constructor
    · by_cases ht : timeout > 0 <;> cases hok : r.ok <;> simp [gakeMain, hr, ht, hok]
    · intro ht
      cases hok : r.ok <;> simp [gakeMain, hr, ht, hok]
  · intro d
    by_cases ht : timeout > 0 <;> simp [alarmFire, ht, eq_comm]

/-- **C8, witness.** With a 5-unit timeout over an empty registry the
trace is arm, the run's output, disarm, `PASS`, exit 0. -/
theorem claim_C8_witness :
    gakeMain false 1 5 (fun _ _ => 0) (okMatcher (fun _ => true)) (fun _ => "0.00") [] [] =
      [MainEv.arm, MainEv.outEv "", MainEv.errEv "tasking: warning: no tasks to run\n",
       MainEv.disarm, MainEv.outEv "PASS\n", MainEv.exitEv 0] :=
  ((claim_C8 false 1 5 (fun _ _ => 0) (okMatcher (fun _ => true)) (fun _ => "0.00") [] []
      (fun _ => "5ns")).2.1
    ⟨true, "", "tasking: warning: no tasks to run\n", [], []⟩ rfl).2 (by decide)


/-- **C9, counterexample.** The claimed exact output
`--- FAIL: TaskB (Xs)` is wrong for the concrete registry
`[TaskA passes, TaskB fail-nows logging "boom"]` with the duration
rendered `0.00`: the reporter's format string is
`"(%.2f seconds)"`, so the line reads `(0.00 seconds)`, not `(0.00s)`. -/
theorem claim_C9_counterexample :
    mainStdout (gakeMain false 1 0 (fun _ _ => 0) (okMatcher (fun _ => true))
        (fun _ => "0.00")
        ([⟨"TaskA", false, false, false, ""⟩,
          ⟨"TaskB", false, true, false, decorate (some ("x_task.go", 7)) (sprintln "boom")⟩] :
          List TaskSpec) [1]) ≠
      "--- FAIL: TaskB (0.00s)\n\tx_task.go:7: boom\nFAIL\n" := by
  decide

/-- **C9 (amended).** The reporter's output is line-oriented: a failed
task produces `--- FAIL: <name> (<seconds> seconds)` followed by its
log; `=== RUN` and the per-task `PASS`/`SKIP` lines appear only in
verbose mode (a non-failed task prints nothing otherwise); the run ends
with a final `PASS` or `FAIL` line and the process exit code is 0 iff
the overall result is success; for the registry
`[TaskA passes, TaskB fail-nows logging "boom"]`, empty pattern, verbose
off, the output is exactly
`--- FAIL: TaskB (0.00 seconds)` newline, tab, `x_task.go:7: boom`
newline, `FAIL` newline, with exit code 1 and no output for TaskA. -/
theorem claim_C9 (name secs out : String) (sk chatty : Bool) (K : Nat)
    (oracle : Nat → Nat → Nat) (matcher : String → Except String Bool)
    (secsFor : String → String) (tasks : List TaskSpec) (cpuList : List Nat) :
    (reportStr chatty secs ⟨name, true, sk, out⟩ =
      "--- FAIL: " ++ name ++ " (" ++ secs ++ " seconds)\n" ++ out) ∧
    (reportStr false secs ⟨name, false, sk, out⟩ = "") ∧
    (reportStr true secs ⟨name, false, true, out⟩ =
      "--- SKIP: " ++ name ++ " (" ++ secs ++ " seconds)\n" ++ out) ∧
    (reportStr true secs ⟨name, false, false, out⟩ =
      "--- PASS: " ++ name ++ " (" ++ secs ++ " seconds)\n" ++ out) ∧
    (∀ r, runTasks chatty K oracle matcher secsFor tasks cpuList = .ok r →
      gakeMain chatty K 0 oracle matcher secsFor tasks cpuList =
        [MainEv.outEv r.out, MainEv.errEv r.errOut] ++
        (if r.ok then [MainEv.outEv "PASS\n", MainEv.exitEv 0]
         else [MainEv.outEv "FAIL\n", MainEv.exitEv 1]) ∧
      ((gakeMain chatty K 0 oracle matcher secsFor tasks cpuList).getLast? =
          some (MainEv.exitEv 0) ↔ r.ok = true)) ∧
    (mainStdout (gakeMain false 1 0 (fun _ _ => 0) (okMatcher (fun _ => true))
        (fun _ => "0.00")
        ([⟨"TaskA", false, false, false, ""⟩,
          ⟨"TaskB", false, true, false, decorate (some ("x_task.go", 7)) (sprintln "boom")⟩] :
          List TaskSpec) [1]) =
      "--- FAIL: TaskB (0.00 seconds)\n\tx_task.go:7: boom\nFAIL\n" ∧
     (gakeMain false 1 0 (fun _ _ => 0) (okMatcher (fun _ => true)) (fun _ => "0.00")
        ([⟨"TaskA", false, false, false, ""⟩,
          ⟨"TaskB", false, true, false, decorate (some ("x_task.go", 7)) (sprintln "boom")⟩] :
          List TaskSpec) [1]).getLast? = some (MainEv.exitEv 1)) := by
  have f1 : ∀ X : String, (" " : String) ++ ("(" ++ X) = " (" ++ X := by
    intro X; rw [← String.append_assoc]; rfl
  have f2 : ∀ X : String, (" seconds)" : String) ++ ("\n" ++ X) = " seconds)\n" ++ X := by
    intro X; rw [← String.append_assoc]; rfl
  refine ⟨by simp only [reportStr]; simp only [String.append_assoc, f1, f2]; simp,
    by simp [reportStr],
    by simp only [reportStr]; simp only [String.append_assoc, f1, f2]; simp,
    by simp only [reportStr]; simp only [String.append_assoc, f1, f2]; simp,
    ?_, by decide, by decide⟩
  intro r hr
  constructor
  · cases hok : r.ok <;> simp [gakeMain, hr, hok]
  · cases hok : r.ok <;> simp [gakeMain, hr, hok]

/-- **C9, witness.** The empty-registry run ends with the `PASS` line
and exit code 0. -/
theorem claim_C9_witness :
    gakeMain false 1 0 (fun _ _ => 0) (okMatcher (fun _ => true)) (fun _ => "0.00") [] [] =
      [MainEv.outEv "", MainEv.errEv "tasking: warning: no tasks to run\n",
       MainEv.outEv "PASS\n", MainEv.exitEv 0] :=
  (((claim_C9 "X" "0.00" "" false false 1 (fun _ _ => 0) (okMatcher (fun _ => true))
      (fun _ => "0.00") [] []).2.2.2.2.1
    ⟨true, "", "tasking: warning: no tasks to run\n", [], []⟩ rfl).1)

/-- **C10.** With an empty task registry `RunTasks` prints the warning
`tasking: warning: no tasks to run` to standard error and returns `true`
without executing any sweep degree (nothing launched, nothing reported,
no stdout), so `Main` reports overall PASS and the process exits with
code 0. -/
theorem claim_C10 (chatty : Bool) (K : Nat) (timeout : Int)
    (oracle : Nat → Nat → Nat) (matcher : String → Except String Bool)
    (secsFor : String → String) (cpuList : List Nat) :
    runTasks chatty K oracle matcher secsFor [] cpuList =
      .ok ⟨true, "", "tasking: warning: no tasks to run\n", [], []⟩ ∧
    gakeMain chatty K timeout oracle matcher secsFor [] cpuList =
      (if timeout > 0 then [MainEv.arm] else []) ++
      [MainEv.outEv "", MainEv.errEv "tasking: warning: no tasks to run\n"] ++
      (if timeout > 0 then [MainEv.disarm] else []) ++
      [MainEv.outEv "PASS\n", MainEv.exitEv 0] := by
  constructor
  · simp [runTasks]
  · simp [gakeMain, runTasks]

end Gake
